import Mathlib

/-!
Shallow embedding of the ASER discourse-relation extraction core
(`src/aser/relation.py` and `src/aser/extract/aser_extractor.py`,
class `DiscourseASERExtractor3`), together with theorems that settle the
frozen claims about it.

Conventions:
* Python `dict`s keyed by strings are embedded as association lists in
  insertion order (`List (String × β)`); lookup takes the first matching
  key, which coincides with `dict` semantics while keys stay unique.
* Python floats used as additive sense weights are embedded as `ℚ`
  (exact additive accumulation, the numeric model the spec asks for).
* Fallible Python code (attribute errors, name errors, unsupported
  formats) is embedded with `Except PyError`.
-/

/-- Python exception kinds raised by the embedded code paths. -/
inductive PyError where
  | notImplementedError (msg : String)
  | attributeError (name : String)
  | nameError (name : String)
deriving Repr, DecidableEq

/-- Sense weights (`float` in the source) are embedded as exact rationals. -/
abbrev Weight := ℚ

/-- Lookup in an insertion-ordered association list, first match wins
(Python `dict` access while keys are unique). -/
def dget {β : Type} : List (String × β) → String → Option β
  | [], _ => none
  | p :: rest, s => if s = p.1 then some p.2 else dget rest s

/-- One step of `if r not in self.relations: self.relations[r] = cnt
else: self.relations[r] += cnt` (relation.py, update_relations): a new key is
appended at the end (dict insertion order), an existing key has its weight
increased in place. -/
def dictAdd (m : List (String × Weight)) (r : String) (c : Weight) : List (String × Weight) :=
  if (dget m r).isSome then m.map (fun p => if p.1 = r then (p.1, p.2 + c) else p)
  else m ++ [(r, c)]

/-- Total weight view of a sense-weight mapping: the stored weight, or 0 when
the label is absent. -/
def wt (m : List (String × Weight)) (s : String) : Weight := (dget m s).getD 0

/-- The `isinstance(x, dict)` branch of `Relation.update_relations`
(relation.py lines 26-31): add every (label, cnt) of `x` into `m`. -/
def update_relations_dict (m x : List (String × Weight)) : List (String × Weight) :=
  x.foldl (fun acc p => dictAdd acc p.1 p.2) m

/-- The `isinstance(x, (list, tuple))` branch of `Relation.update_relations`
(relation.py lines 32-37): each occurrence of a label adds weight 1.0. -/
def update_relations_list (m : List (String × Weight)) (x : List String) : List (String × Weight) :=
  x.foldl (fun acc r => dictAdd acc r 1) m

/-- A directed, sense-weighted relation edge (relation.py, class `Relation`).
`relations` is the sense-label → accumulated-weight mapping. -/
structure Relation where
  heid : String
  teid : String
  rid : String
  relations : List (String × Weight)
deriving Repr, DecidableEq

/-- `Relation.generate_rid` (relation.py lines 19-22): the rid is
`hashlib.sha1((heid + "$" + teid).encode()).hexdigest()`. The sha1 hexdigest
is a deterministic function of its input and is modelled here as an injective
encoding of the key string, so rid equality is modelled as key equality; in
particular, two calls whose key strings are equal produce equal rids for the
real digest as well, so any collision exhibited at the key level is a genuine
rid collision of the source code. -/
def Relation.generate_rid (heid teid : String) : String := heid ++ "$" ++ teid

/-- The `isinstance(x, Relation)` branch of `Relation.update_relations`
(relation.py lines 38-44): the sense weights of `x` are merged additively,
but only when both endpoint ids agree; otherwise nothing at all happens. -/
def Relation.update_relations (self : Relation) (x : Relation) : Relation :=
  if self.heid = x.heid ∧ self.teid = x.teid then
    { self with relations := update_relations_dict self.relations x.relations }
  else self

/-- `Relation.__init__` as invoked at the relation-creation sites
(`Relation(heid, teid, [sense, ...])`, relation.py lines 11-17): the sense
mapping starts empty and the list argument is folded in, giving each listed
sense weight 1.0 per occurrence. -/
def Relation.init (heid teid : String) (senses : List String) : Relation :=
  { heid := heid, teid := teid, rid := Relation.generate_rid heid teid,
    relations := update_relations_list [] senses }

/-- Python attribute lookup on a `Relation` instance, restricted to the
string-valued attributes assigned in `__init__` (relation.py lines 12-14).
Any other attribute name — in particular the `hid` and `tid` read by the
extractor's lookup loops — raises `AttributeError`. -/
def Relation.getStrAttr (r : Relation) (a : String) : Except PyError String :=
  if a = "heid" then .ok r.heid
  else if a = "teid" then .ok r.teid
  else if a = "rid" then .ok r.rid
  else .error (.attributeError a)

/-- The call `relation.update(...)` appearing in the extractor
(aser_extractor.py lines 310, 331, 494): class `Relation` defines
`update_relations` but no method named `update`, so Python method lookup
raises `AttributeError`. -/
def Relation.callUpdate (_r : Relation) (_senses : List String) : Except PyError Relation :=
  .error (.attributeError "update")

/-- The call `relation.to_triples()` appearing in the triple output branches
(aser_extractor.py lines 340, 352, 533): class `Relation` in relation.py
defines no `to_triples`, so the call raises `AttributeError`. -/
def Relation.to_triples (_r : Relation) : Except PyError (List (String × String × String)) :=
  .error (.attributeError "to_triples")

/-- The `for relation in relations: if relation.hid == heid and
relation.tid == teid: relation.update(senses); existed_relation = True; break`
scan of a relation bucket (aser_extractor.py lines 308-312, 329-333, 492-496).
Returns the possibly-updated bucket together with the `existed_relation`
flag; errors propagate exactly where the Python attribute reads raise. -/
def scanExisted : List Relation → String → String → List String →
    Except PyError (List Relation × Bool)
  | [], _, _, _ => .ok ([], false)
  | r :: rest, heid, teid, senses => do
    let hid ← r.getStrAttr "hid"
    if hid = heid then do
      let tid ← r.getStrAttr "tid"
      if tid = teid then do
        let r2 ← r.callUpdate senses
        .ok (r2 :: rest, true)
      else do
        let (rest2, ex) ← scanExisted rest heid teid senses
        .ok (r :: rest2, ex)
    else do
      let (rest2, ex) ← scanExisted rest heid teid senses
      .ok (r :: rest2, ex)

/-- The lookup-or-create step for one (head eid, tail eid, senses) candidate
(aser_extractor.py lines 307-314, 328-335, 491-498): scan the bucket for an
existing relation, merge if found, otherwise append a fresh
`Relation(heid, teid, senses)`. -/
def addRelationSense (relations : List Relation) (heid teid : String) (senses : List String) :
    Except PyError (List Relation) := do
  let (rs, existed) ← scanExisted relations heid teid senses
  if existed then .ok rs else .ok (rs ++ [Relation.init heid teid senses])

/-- Modelled from the spec: class `Eventuality` (aser/eventuality.py is not
under src). Spec §3: identity `eid` is a content hash; `raw_sent_mapping`
maps eventuality-local token positions to sentence-local token positions;
`frequency` is the evidence counter. -/
structure Eventuality where
  eid : String
  raw_sent_mapping : List (Nat × Nat)
  frequency : ℚ
deriving Repr, DecidableEq

/-- Modelled from the spec: `Eventuality.update` (aser/eventuality.py is not
under src). Spec §3: two Eventuality instances with equal `eid` are mergeable
and their evidence counters add. -/
def Eventuality.update (self other : Eventuality) : Eventuality :=
  { self with frequency := self.frequency + other.frequency }

/-- Concatenation of a list of lists (`itertools.chain.from_iterable`). -/
def concatAll {α : Type} : List (List α) → List α
  | [] => []
  | l :: ls => l ++ concatAll ls

/-- All ordered pairs (e1, e2) with e1 strictly before e2 in list order — the
`for e1_idx in range(k-1): for e2_idx in range(e1_idx+1, k)` double loop. -/
def orderedPairs {α : Type} : List α → List (α × α)
  | [] => []
  | x :: xs => xs.map (fun y => (x, y)) ++ orderedPairs xs

/-- All pairs (x, y) with x from the first list and y from the second — the
`for e1 in eventualities1: for e2 in eventualities2` double loop. -/
def crossPairs {α : Type} (xs ys : List α) : List (α × α) :=
  concatAll (xs.map (fun x => ys.map (fun y => (x, y))))

/-- Byte-wise/code-point-wise lexicographic comparison of character lists,
mirroring Python string comparison used by `sorted(..., key=...)`. -/
def strLeChars : List Char → List Char → Bool
  | [], _ => true
  | _ :: _, [] => false
  | a :: as, b :: bs => if a = b then strLeChars as bs else decide (a.val < b.val)

/-- Python `<=` on strings (lexicographic by code point). -/
def strLe (a b : String) : Bool := strLeChars a.data b.data

/-- Insert into a list sorted by `le`. -/
def insertSorted {α : Type} (le : α → α → Bool) (x : α) : List α → List α
  | [] => [x]
  | y :: ys => if le x y then x :: y :: ys else y :: insertSorted le x ys

/-- Insertion sort by `le` — embedding of Python `sorted`. -/
def sortBy {α : Type} (le : α → α → Bool) (l : List α) : List α :=
  l.foldr (insertSorted le) []

/-- Comparator for `sorted(..., key=lambda r: r.rid)`. -/
def relLe (a b : Relation) : Bool := strLe a.rid b.rid

/-- Comparator for `sorted(..., key=lambda e: e.eid)`. -/
def evLe (a b : Eventuality) : Bool := strLe a.eid b.eid

/-- Lexicographic comparator on string triples (Python tuple comparison). -/
def strTripleLe (a b : String × String × String) : Bool :=
  if a.1 = b.1 then (if a.2.1 = b.2.1 then strLe a.2.2 b.2.2 else strLeChars a.2.1.data b.2.1.data)
  else strLeChars a.1.data b.1.data

/-- Lexicographic comparator on lists, given a comparator of elements
(Python list comparison). -/
def listLeBy {α : Type} [DecidableEq α] (le : α → α → Bool) : List α → List α → Bool
  | [], _ => true
  | _ :: _, [] => false
  | a :: as, b :: bs => if a = b then listLeBy le as bs else le a b

/-- The baseline `Co_Occurrence` loop for one sentence (aser_extractor.py
lines 268-273): one `Relation(heid, teid, ["Co_Occurrence"])` for every pair
of eventualities with the head occurring before the tail in extraction
order. (The source skips the loop for a sentence with no eventualities; for
an empty list the loop body never runs, so the result agrees.) -/
def coBaseline (evs : List Eventuality) : List Relation :=
  (orderedPairs evs).map (fun p => Relation.init p.1.eid p.2.eid ["Co_Occurrence"])

/-- An argument descriptor of a connective candidate (external input,
spec §3 and §6): a sentence index and the ordered token indices it covers. -/
structure Arg where
  sent_idx : Nat
  indices : List Nat
deriving Repr, DecidableEq

/-- A classified connective candidate as consumed by the relation loops
(external input, spec §3 and §6). `none` components stand for absent keys /
Python `None`; an empty `indices` list is falsy like an empty Python list. -/
structure Connective where
  indices : List Nat
  arg1 : Option Arg
  arg2 : Option Arg
  sense : Option String
deriving Repr, DecidableEq

/-- Modelled from the spec: the Simpson overlap coefficient (spec §4.3 and
glossary; `DiscourseRelationExtractor._match_argument_eventuality_by_Simpson`
is not under src): `|A ∩ B| / min(|A|, |B|)` on the two token-index sets,
0 when either set is empty. -/
def simpson_coefficient (A B : List Nat) : ℚ :=
  let As := A.dedup
  let Bs := B.dedup
  if As.length = 0 ∨ Bs.length = 0 then 0
  else mkRat ((As.filter (fun a => decide (a ∈ Bs))).length : Int) (min As.length Bs.length)

/-- Modelled from the spec: the argument/eventuality matcher (spec §4.3) —
true iff the Simpson coefficient between the argument span's token indices
and the eventuality's sentence-local token positions (the values of
`raw_sent_mapping`) reaches the threshold. The source also passes a
sentence annotation, which the coefficient does not use. -/
def simpson_match (arg : Arg) (e : Eventuality) (threshold : ℚ) : Bool :=
  decide (threshold ≤ simpson_coefficient arg.indices (e.raw_sent_mapping.map Prod.snd))

/-- The bucket-index selection of `extract_from_parsed_result`
(aser_extractor.py lines 472-477): same sentence → intra-sentence bucket
`i`; exactly adjacent (`arg1_idx + 1 == arg2_idx`) → inter-sentence bucket
`i + len_sentences`; anything else → `continue` (the candidate is
discarded), embedded as `none`. -/
def relation_list_idx_checked (len_sentences arg1_sent_idx arg2_sent_idx : Nat) : Option Nat :=
  if arg1_sent_idx = arg2_sent_idx then some arg1_sent_idx
  else if arg1_sent_idx + 1 = arg2_sent_idx then some (arg1_sent_idx + len_sentences)
  else none

/-- The bucket-index selection of `extract_relations_from_parsed_result`
(aser_extractor.py lines 293-294 and 315-317): same sentence → bucket `i`;
ANY other sentence pair — adjacency is not checked — → bucket
`i + len_sentences`. -/
def relation_list_idx_unchecked (len_sentences arg1_sent_idx arg2_sent_idx : Nat) : Nat :=
  if arg1_sent_idx = arg2_sent_idx then arg1_sent_idx
  else arg1_sent_idx + len_sentences

/-- The `senses` list built by `extract_from_parsed_result` (aser_extractor.py
lines 478-482): a forced `Co_Occurrence` for a same-sentence pair, plus the
classified sense when it is truthy and not the string "None". -/
def senses_for (same_sent : Bool) (sense : Option String) : List String :=
  (if same_sent then ["Co_Occurrence"] else []) ++
    (match sense with
     | some s => if s ≠ "" ∧ s ≠ "None" then [s] else []
     | none => [])

/-- The relation-recording tail of one `extract_from_parsed_result`
connective iteration (aser_extractor.py lines 472-498): select the bucket
(discarding non-adjacent candidates), build the senses list (skipping when
empty), then run the lookup-or-create step over every pair of the two
argument eventuality lists. `buckets.set` beyond the list length is only
reached for out-of-range sentence indices, which the upstream pipeline does
not produce. -/
def add_connective_relations (len_sentences : Nat) (buckets : List (List Relation))
    (eventualities1 eventualities2 : List Eventuality) (arg1_sent_idx arg2_sent_idx : Nat)
    (sense : Option String) : Except PyError (List (List Relation)) :=
  match relation_list_idx_checked len_sentences arg1_sent_idx arg2_sent_idx with
  | none => .ok buckets
  | some idx =>
    let senses := senses_for (arg1_sent_idx = arg2_sent_idx) sense
    if senses = [] then .ok buckets
    else do
      let b ← (crossPairs eventualities1 eventualities2).foldlM
        (fun acc p => addRelationSense acc p.1.eid p.2.eid senses) (buckets.getD idx [])
      .ok (buckets.set idx b)

/-- One `extract_relations_from_parsed_result` connective iteration
(aser_extractor.py lines 285-335). The candidate is processed only when the
connective span, both arguments, and a sense other than "None" are present.
Same-sentence candidates pair eventualities in extraction order; candidates
whose arguments are in different sentences — with no adjacency check — go to
bucket `arg1_sent_idx + len_sentences`. Hoisting the arg1 Simpson test out of
the inner loop in the source is equivalent to filtering the pairs, since the
tests do not depend on the bucket. The cross-sentence branch of the source
passes a stale `sent_parsed_result` to the matcher; the matcher only uses the
span index sets, so it does not appear here. -/
def processConnective (len_sentences : Nat) (para_eventualities : List (List Eventuality))
    (buckets : List (List Relation)) (c : Connective) : Except PyError (List (List Relation)) :=
  match c.arg1, c.arg2, c.sense with
  | some arg1, some arg2, some sense =>
    if c.indices ≠ [] ∧ sense ≠ "" ∧ sense ≠ "None" then
      let idx := relation_list_idx_unchecked len_sentences arg1.sent_idx arg2.sent_idx
      if arg1.sent_idx = arg2.sent_idx then
        let evs := para_eventualities.getD arg1.sent_idx []
        let pairs := (orderedPairs evs).filter
          (fun p => simpson_match arg1 p.1 (mkRat 99 100) && simpson_match arg2 p.2 (mkRat 99 100))
        do
          let b ← pairs.foldlM (fun acc p => addRelationSense acc p.1.eid p.2.eid [sense])
            (buckets.getD idx [])
          .ok (buckets.set idx b)
      else
        let evs1 := para_eventualities.getD arg1.sent_idx []
        let evs2 := para_eventualities.getD arg2.sent_idx []
        let pairs := (crossPairs evs1 evs2).filter
          (fun p => simpson_match arg1 p.1 (mkRat 99 100) && simpson_match arg2 p.2 (mkRat 99 100))
        do
          let b ← pairs.foldlM (fun acc p => addRelationSense acc p.1.eid p.2.eid [sense])
            (buckets.getD idx [])
          .ok (buckets.set idx b)
    else .ok buckets
  | _, _, _ => .ok buckets

/-- One step of the merged-mode rid grouping in
`extract_relations_from_parsed_result` (aser_extractor.py lines 344-349):
a fresh rid executes `deeocopy(relation)` — an undefined name, raising
`NameError` — and a repeated rid calls the nonexistent method
`relation.update`, raising `AttributeError`. -/
def ridStepBuggy (d : List (String × Relation)) (r : Relation) :
    Except PyError (List (String × Relation)) :=
  if (dget d r.rid).isSome then .error (.attributeError "update")
  else .error (.nameError "deeocopy")

/-- One step of the merged-mode rid grouping in `extract_from_parsed_result`
(aser_extractor.py lines 524-529): a fresh rid is deep-copied into the dict;
a repeated rid calls the nonexistent method `relation.update`, raising
`AttributeError`. -/
def ridStep (d : List (String × Relation)) (r : Relation) :
    Except PyError (List (String × Relation)) :=
  if (dget d r.rid).isSome then .error (.attributeError "update")
  else .ok (d ++ [(r.rid, r)])

/-- The merged-mode relation path of `extract_from_parsed_result`
(aser_extractor.py lines 524-531): group the flattened buckets by rid, then
sort the grouped relations by rid. -/
def merged_relations_from (buckets : List (List Relation)) : Except PyError (List Relation) := do
  let d ← (concatAll buckets).foldlM ridStep []
  .ok (sortBy relLe (d.map Prod.snd))

/-- One step of the merged-mode eid grouping (aser_extractor.py lines
512-518): a fresh eid is deep-copied in, a repeated eid is merged via
`Eventuality.update` (which exists, per the spec model of the class). -/
def eidStep (d : List (String × Eventuality)) (e : Eventuality) :
    List (String × Eventuality) :=
  if (dget d e.eid).isSome then d.map (fun p => if p.1 = e.eid then (p.1, p.2.update e) else p)
  else d ++ [(e.eid, e)]

/-- The merged-mode eventuality path (aser_extractor.py lines 512-520):
group the flattened per-sentence lists by eid, then sort by eid. -/
def merged_eventualities_from (buckets : List (List Eventuality)) : List Eventuality :=
  sortBy evLe (((concatAll buckets).foldl eidStep []).map Prod.snd)

/-- Result shapes of `extract_relations_from_parsed_result` over its
`in_order` / `output_format` combinations. The zero-sentence early return
(`return [list()]` / `return list()`) yields an empty bucket list before the
output format is consulted; it is represented with the Relation-shaped
constructors, which are the only inhabited ones there. -/
inductive RelResult where
  | inOrder (buckets : List (List Relation))
  | inOrderTriple (ts : List (List (String × String × String)))
  | merged (rels : List Relation)
  | mergedTriple (ts : List (List (String × String × String)))
deriving Repr, DecidableEq

/-- `DiscourseASERExtractor3.extract_relations_from_parsed_result`
(aser_extractor.py lines 248-352), with the external connective pipeline's
classified output supplied as `connectives`. `parsed_len` is
`len(parsed_result)`. Buckets: `2*n-1` lists, the first `n` seeded with the
baseline `Co_Occurrence` relations of each sentence, then each connective
candidate is processed in order. The merged `Relation` path runs the buggy
rid grouping (`deeocopy` / `update`); the `triple` paths call the
nonexistent `Relation.to_triples`. -/
def extract_relations3 (parsed_len : Nat) (para_eventualities : List (List Eventuality))
    (connectives : List Connective) (output_format : String) (in_order : Bool) :
    Except PyError RelResult :=
  if ¬(output_format = "Relation" ∨ output_format = "triple") then
    .error (.notImplementedError "extract_relations_from_parsed_result only supports Relation or triple")
  else if parsed_len = 0 then
    (if in_order then .ok (.inOrder [[]]) else .ok (.merged []))
  else do
    let base := (List.range parsed_len).map (fun i => coBaseline (para_eventualities.getD i []))
    let start := base ++ List.replicate (parsed_len - 1) []
    let buckets ← connectives.foldlM (processConnective parsed_len para_eventualities) start
    if in_order then
      if output_format = "Relation" then .ok (.inOrder buckets)
      else do
        let ts ← buckets.mapM (fun rs => do
          let tss ← rs.mapM Relation.to_triples
          pure (sortBy strTripleLe (concatAll tss)))
        .ok (.inOrderTriple ts)
    else
      if output_format = "Relation" then do
        let d ← (concatAll buckets).foldlM ridStepBuggy []
        .ok (.merged (sortBy relLe (d.map Prod.snd)))
      else do
        let ts ← (concatAll buckets).mapM Relation.to_triples
        .ok (.mergedTriple (sortBy (listLeBy strTripleLe) ts))

/-- A coreference mention span of a sentence annotation (external input,
spec §3/§6): `{start, end (exclusive), type}`; `mtype` stands for the
payload fields that `copy(mention)` preserves unchanged. -/
structure Mention where
  start : Nat
  end_ : Nat
  mtype : String
deriving Repr, DecidableEq

/-- A per-sentence syntactic annotation as consumed by the span-projection
code (external input, spec §3/§6). -/
structure SentParsed where
  text : String
  dependencies : List (Nat × String × Nat)
  tokens : List String
  pos_tags : List String
  lemmas : List String
  ners : Option (List String)
  mentions : Option (List Mention)
deriving Repr, DecidableEq

/-- Position of a token index inside an index list — the enumerate-based
dict `{j: i for i, j in enumerate(indices)}` looked up at `j` (first
occurrence; the spans fed to it are duplicate-free). Indices absent from
the list are never looked up by the source (the dependency filter guards
membership first). -/
def idx_pos : List Nat → Nat → Nat
  | [], _ => 0
  | k :: rest, j => if k = j then 0 else idx_pos rest j + 1

/-- `bisect.bisect_left` on a sorted index list: the number of entries
strictly below `x`. -/
def bisect_left : List Nat → Nat → Nat
  | [], _ => 0
  | k :: rest, x => if k < x then bisect_left rest x + 1 else bisect_left rest x

/-- The argument-span projection of `extract_from_parsed_result`
(aser_extractor.py lines 390-414 for arg1, 431-455 identically for arg2):
gather tokens / POS tags / lemmas (and NER labels when present) in the order
of the span; keep a dependency triple iff both endpoints are in the span,
re-indexed through the position map; keep a mention iff `bisect_left` finds
both its start and its `end-1` boundary exactly in the span, rewriting
start/end to span-local positions (end exclusive). Out-of-range gathers
(`getD`) stand for accesses the source only performs with in-range spans. -/
def project (sp : SentParsed) (indices : List Nat) : SentParsed :=
  { text := ""
    dependencies := (sp.dependencies.filter
        (fun dep => decide (dep.1 ∈ indices) && decide (dep.2.2 ∈ indices))).map
        (fun dep => (idx_pos indices dep.1, dep.2.1, idx_pos indices dep.2.2))
    tokens := indices.map (fun idx => sp.tokens.getD idx "")
    pos_tags := indices.map (fun idx => sp.pos_tags.getD idx "")
    lemmas := indices.map (fun idx => sp.lemmas.getD idx "")
    ners := sp.ners.map (fun ns => indices.map (fun idx => ns.getD idx ""))
    mentions := sp.mentions.map (fun ms => ms.filterMap (fun m =>
      let start_idx := bisect_left indices m.start
      if start_idx < indices.length ∧ indices.getD start_idx 0 = m.start then
        let end_idx := bisect_left indices (m.end_ - 1)
        if end_idx < indices.length ∧ indices.getD end_idx 0 = m.end_ - 1 then
          some { m with start := start_idx, end_ := end_idx + 1 }
        else none
      else none)) }

/-- The clause projection of `extract_eventualities_from_parsed_result`
(aser_extractor.py lines 210-218): like the argument projection but without
NER labels and mentions. -/
def projectClause (sp : SentParsed) (clause : List Nat) : SentParsed :=
  { text := ""
    dependencies := (sp.dependencies.filter
        (fun dep => decide (dep.1 ∈ clause) && decide (dep.2.2 ∈ clause))).map
        (fun dep => (idx_pos clause dep.1, dep.2.1, idx_pos clause dep.2.2))
    tokens := clause.map (fun idx => sp.tokens.getD idx "")
    pos_tags := clause.map (fun idx => sp.pos_tags.getD idx "")
    lemmas := clause.map (fun idx => sp.lemmas.getD idx "")
    ners := none
    mentions := none }

/-- Result shapes of `extract_eventualities_from_parsed_result`. -/
inductive EvResult where
  | inOrder (para : List (List Eventuality))
  | merged (evs : List Eventuality)
deriving Repr, DecidableEq

/-- `DiscourseASERExtractor3.extract_eventualities_from_parsed_result` on a
paragraph (list) input (aser_extractor.py lines 196-246), with the clause
segmenter's output (`_extract_clauses`, driven by the external connective
extractor) supplied as `para_clauses` and the external seed-rule eventuality
extractor supplied as `extractor`. Each clause is projected, extracted, and
every returned eventuality has its `raw_sent_mapping` values translated back
through the clause's own index list; sentences beyond the clause list keep
their initial empty list (`zip` truncation in the source). -/
def extract_eventualities3 (parsed_result : List SentParsed)
    (para_clauses : List (List (List Nat)))
    (extractor : SentParsed → List Eventuality) (in_order : Bool) : EvResult :=
  let para_eventualities := (List.range parsed_result.length).map (fun i =>
    match parsed_result[i]?, para_clauses[i]? with
    | some sp, some clauses =>
        concatAll (clauses.map (fun clause =>
          (extractor (projectClause sp clause)).map (fun e =>
            { e with raw_sent_mapping :=
                e.raw_sent_mapping.map (fun kv => (kv.1, clause.getD kv.2 0)) })))
    | _, _ => [])
  if in_order then .inOrder para_eventualities
  else .merged (merged_eventualities_from para_eventualities)

/-- The dynamic shape of the `parsed_result` argument: a single sentence
annotation (`dict`), a paragraph (`list`/`tuple` of them), or any other
Python value. -/
inductive ParaInput (σ : Type) where
  | dict (s : σ)
  | listOf (l : List σ)
  | other
deriving Repr, DecidableEq

/-- The validation prelude of `extract_from_parsed_result`
(aser_extractor.py lines 354-366, identical shape in the base class lines
90-101): the two output-format checks run first, then the input-shape check;
only then does any extraction work (`body`, taking the normalized sentence
list and the `is_single_sent` flag) run. -/
def extract_from_parsed_result_guard {σ ρ : Type} (eventuality_output_format : String)
    (relation_output_format : String) (parsed_result : ParaInput σ)
    (body : List σ → Bool → ρ) : Except PyError ρ :=
  if ¬(eventuality_output_format = "Eventuality" ∨ eventuality_output_format = "json") then
    .error (.notImplementedError "extract_eventualities only supports Eventuality or json")
  else if ¬(relation_output_format = "Relation" ∨ relation_output_format = "triple") then
    .error (.notImplementedError "extract_relations only supports Relation or triple")
  else
    match parsed_result with
    | .other => .error (.notImplementedError "")
    | .dict s => .ok (body [s] true)
    | .listOf l => .ok (body l false)

/-! Concrete inputs used by counterexamples and witnesses. -/

/-- A concrete eventuality of sentence 0 covering tokens 0 and 1. -/
def ev1 : Eventuality := { eid := "E1", raw_sent_mapping := [(0, 0), (1, 1)], frequency := 1 }

/-- A second concrete eventuality with a distinct eid. -/
def ev2 : Eventuality := { eid := "E2", raw_sent_mapping := [(0, 0), (1, 1)], frequency := 1 }

/-- A concrete eventuality of sentence 2 covering tokens 0 and 1. -/
def ev3 : Eventuality := { eid := "E3", raw_sent_mapping := [(0, 0), (1, 1)], frequency := 1 }

/-- A concrete baseline relation between `ev1` and `ev2`. -/
def rel0 : Relation := Relation.init "E1" "E2" ["Co_Occurrence"]

/-- A concrete connective candidate whose arguments sit in sentences 0 and 2
(non-adjacent), classified with sense `Reason`. -/
def conn02 : Connective :=
  { indices := [2], arg1 := some { sent_idx := 0, indices := [0, 1] },
    arg2 := some { sent_idx := 2, indices := [0, 1] }, sense := some "Reason" }

/-! Helper lemmas about the sense-weight dictionaries. -/

theorem dget_addMap (m : List (String × Weight)) (r s : String) (c : Weight) :
    dget (m.map (fun p => if p.1 = r then (p.1, p.2 + c) else p)) s =
      if s = r then (dget m s).map (· + c) else dget m s := by
  induction m with
  | nil => simp [dget]
  | cons p rest ih =>
    by_cases h1 : p.1 = r
    · by_cases h2 : s = p.1
      · have hsr : s = r := h2.trans h1
        simp [dget, h1, h2, hsr]
      · have hsr : ¬ s = r := fun h => h2 (h.trans h1.symm)
        simp [dget, h1, h2, hsr, ih]
    · by_cases h2 : s = p.1
      · have hsr : ¬ s = r := fun h => h1 (h2.symm.trans h)
        simp [dget, h1, h2, hsr]
      · simp [dget, h1, h2, ih]

theorem dget_append_some {m l : List (String × Weight)} {s : String} {v : Weight}
    (h : dget m s = some v) : dget (m ++ l) s = some v := by
  induction m with
  | nil => simp [dget] at h
  | cons p rest ih =>
    by_cases h2 : s = p.1 <;> simp_all [dget]

theorem dget_append_none {m : List (String × Weight)} (l : List (String × Weight)) {s : String}
    (h : dget m s = none) : dget (m ++ l) s = dget l s := by
  induction m with
  | nil => simp [dget]
  | cons p rest ih =>
    by_cases h2 : s = p.1 <;> simp_all [dget]

theorem wt_dictAdd (m : List (String × Weight)) (r s : String) (c : Weight) :
    wt (dictAdd m r c) s = wt m s + if s = r then c else 0 := by
  unfold dictAdd
  by_cases hm : (dget m r).isSome
  · rw [if_pos hm, wt, dget_addMap]
    by_cases hs : s = r
    · subst hs
      obtain ⟨w, hw⟩ := Option.isSome_iff_exists.mp hm
      simp [wt, hw]
    · simp [wt, hs]
  · rw [if_neg hm]
    have hr : dget m r = none := Option.not_isSome_iff_eq_none.mp hm
    cases hms : dget m s with
    | some v =>
      have hsr : ¬ s = r := by
        intro h; rw [h] at hms; rw [hms] at hr; cases hr
      rw [wt, dget_append_some hms]
      simp [wt, hms, hsr]
    | none =>
      rw [wt, dget_append_none _ hms]
      by_cases hs : s = r <;> simp [wt, dget, hms, hs, hr]

theorem wt_update_relations_list (m : List (String × Weight)) (xs : List String) (s : String) :
    wt (update_relations_list m xs) s = wt m s + ((xs.count s : ℕ) : ℚ) := by
  induction xs generalizing m with
  | nil => simp [update_relations_list]
  | cons x xs ih =>
    have hstep : update_relations_list m (x :: xs) = update_relations_list (dictAdd m x 1) xs := rfl
    rw [hstep, ih, wt_dictAdd]
    have hc : (x :: xs).count s = xs.count s + if x = s then 1 else 0 := by
      simp [List.count_cons]
    rw [hc]
    by_cases hs : s = x
    · rw [if_pos hs.symm, if_pos hs]
      push_cast
      ring
    · rw [if_neg hs, if_neg (fun h => hs (Eq.symm h))]
      push_cast
      ring

theorem wt_of_not_mem_keys {x : List (String × Weight)} {s : String}
    (h : s ∉ x.map Prod.fst) : wt x s = 0 := by
  induction x with
  | nil => simp [wt, dget]
  | cons p rest ih =>
    rw [List.map_cons] at h
    have h1 : ¬ s = p.1 := fun he => h (by rw [he]; exact List.mem_cons_self _ _)
    have h2 : s ∉ rest.map Prod.fst := fun hm => h (List.mem_cons_of_mem _ hm)
    show (dget (p :: rest) s).getD 0 = 0
    simp only [dget, if_neg h1]
    exact ih h2

theorem wt_update_relations_dict (m x : List (String × Weight)) (s : String)
    (hx : (x.map Prod.fst).Nodup) :
    wt (update_relations_dict m x) s = wt m s + wt x s := by
  induction x generalizing m with
  | nil => simp [update_relations_dict, wt, dget]
  | cons p rest ih =>
    simp only [List.map_cons, List.nodup_cons] at hx
    have hstep : update_relations_dict m (p :: rest) =
        update_relations_dict (dictAdd m p.1 p.2) rest := rfl
    rw [hstep, ih _ hx.2, wt_dictAdd]
    by_cases hs : s = p.1
    · have h0 : wt rest s = 0 := by rw [hs]; exact wt_of_not_mem_keys hx.1
      rw [h0]
      simp only [wt, dget, if_pos hs, Option.getD_some]
      ring
    · simp only [wt, dget, if_neg hs]
      ring

/-- A concrete relation used by the C2 witness. -/
def relW1 : Relation :=
  { heid := "A", teid := "B", rid := Relation.generate_rid "A" "B",
    relations := [("Reason", 2), ("Result", 1)] }

/-- A second concrete relation with the same endpoints as `relW1`. -/
def relW2 : Relation :=
  { heid := "A", teid := "B", rid := Relation.generate_rid "A" "B",
    relations := [("Reason", 3), ("Contrast", 5)] }

/-- A concrete relation whose tail endpoint differs from `relW1`. -/
def relW3 : Relation :=
  { heid := "A", teid := "C", rid := Relation.generate_rid "A" "C",
    relations := [("Reason", 7)] }

/-- C2: merging one Relation into another with equal heid and teid via
`update_relations` gives, for every sense label, a weight equal to the sum of
the two prior weights (absent labels counting as 0, so labels present on one
side keep that side's weight and nothing is overwritten or discarded), and
merging a list of sense labels adds 1.0 per occurrence of each label. -/
theorem update_relations_additive (r1 r2 : Relation)
    (hh : r1.heid = r2.heid) (ht : r1.teid = r2.teid)
    (hnd : (r2.relations.map Prod.fst).Nodup) (s : String) (xs : List String) :
    wt (r1.update_relations r2).relations s = wt r1.relations s + wt r2.relations s ∧
    wt (update_relations_list r1.relations xs) s =
      wt r1.relations s + ((xs.count s : ℕ) : ℚ) := by
  constructor
  · rw [Relation.update_relations, if_pos ⟨hh, ht⟩]
    exact wt_update_relations_dict _ _ _ hnd
  · exact wt_update_relations_list _ _ _

/-- Witness for C2 at concrete relations and a concrete label list. -/
theorem update_relations_additive_witness :
    wt (relW1.update_relations relW2).relations "Reason" =
      wt relW1.relations "Reason" + wt relW2.relations "Reason" ∧
    wt (update_relations_list relW1.relations ["Reason", "Contrast", "Reason"]) "Reason" =
      wt relW1.relations "Reason" + ((["Reason", "Contrast", "Reason"].count "Reason" : ℕ) : ℚ) :=
  update_relations_additive relW1 relW2 rfl rfl (by decide) "Reason"
    ["Reason", "Contrast", "Reason"]

/-- C10: `update_relations` with a Relation argument whose heid or teid
differs from the receiver's is a silent no-op — the receiver is returned
completely unchanged and no error is raised. -/
theorem update_relations_mismatch_noop (r1 r2 : Relation)
    (h : r1.heid ≠ r2.heid ∨ r1.teid ≠ r2.teid) :
    r1.update_relations r2 = r1 := by
  rw [Relation.update_relations, if_neg]
  rintro ⟨hh, ht⟩
  rcases h with h | h
  · exact h hh
  · exact h ht

/-- Witness for C10 at concrete mismatched relations. -/
theorem update_relations_mismatch_noop_witness :
    relW1.update_relations relW3 = relW1 :=
  update_relations_mismatch_noop relW1 relW3 (Or.inr (by decide))

/-- C3: the lookup-or-create step of the connective loops. On an empty bucket
it appends a fresh relation carrying the sense at weight 1.0, but on any
non-empty bucket the scan reads the nonexistent attribute `hid` of the first
stored Relation and raises `AttributeError` — it does not complete for
non-empty bucket states. -/
theorem lookup_or_create_eval :
    addRelationSense [rel0] "E1" "E2" ["Reason"] = .error (.attributeError "hid") ∧
    addRelationSense [] "E1" "E2" ["Reason"] = .ok [Relation.init "E1" "E2" ["Reason"]] ∧
    (Relation.init "E1" "E2" ["Reason"]).relations = [("Reason", 1)] :=
  ⟨rfl, rfl, rfl⟩

/-- C6 counterexample: two distinct ordered id pairs — (A,B) and (B,A) with
A = "a$a", B = "a" — produce the same rid key "a$a$a", hence the same sha1
rid in the source, although A and B are distinct identities. -/
theorem rid_collision :
    Relation.generate_rid "a$a" "a" = Relation.generate_rid "a" "a$a" ∧
    ("a$a" : String) ≠ "a" := by
  refine ⟨by decide, by decide⟩

theorem strTakeWhile_append (l r : List Char) (h : '$' ∉ l) :
    (l ++ '$' :: r).takeWhile (fun c => c != '$') = l := by
  induction l with
  | nil => simp [List.takeWhile]
  | cons a as ih =>
    have ha : a ≠ '$' := fun he => h (by rw [he]; exact List.mem_cons_self _ _)
    have h2 : '$' ∉ as := fun hm => h (List.mem_cons_of_mem _ hm)
    simp [List.takeWhile_cons, ha, ih h2]

/-- C6 amended: rid is the deterministic hash of the ordered key
heid + "$" + teid, and whenever the two identities are free of the separator
character and distinct, the keys of (A,B) and (B,A) differ, so direction
matters; identities containing "$" can collide exactly (see the
counterexample), and the hash key alone never introduces a symmetric edge. -/
theorem rid_directional (A B : String) (hA : '$' ∉ A.data) (hB : '$' ∉ B.data)
    (hne : A ≠ B) : Relation.generate_rid A B ≠ Relation.generate_rid B A := by
  intro h
  apply hne
  have hdata : A.data ++ '$' :: B.data = B.data ++ '$' :: A.data := by
    have hd := congrArg String.data h
    simpa [Relation.generate_rid, String.data_append] using hd
  have t1 := strTakeWhile_append A.data B.data hA
  have t2 := strTakeWhile_append B.data A.data hB
  rw [hdata, t2] at t1
  cases A with
  | mk da =>
    cases B with
    | mk db => exact congrArg String.mk t1.symm

/-- Witness for C6's amended statement at concrete separator-free ids. -/
theorem rid_directional_witness :
    Relation.generate_rid "a" "b" ≠ Relation.generate_rid "b" "a" :=
  rid_directional "a" "b" (by decide) (by decide) (by decide)

/-- C7 counterexample: on a zero-sentence paragraph the eventuality result is
the empty sequence of buckets, not a single-bucket sequence. -/
theorem empty_paragraph_not_single_bucket :
    extract_eventualities3 [] [] (fun _ => []) true = .inOrder [] ∧
    EvResult.inOrder ([] : List (List Eventuality)) ≠ EvResult.inOrder [[]] := by
  refine ⟨rfl, by simp⟩

/-- C7 amended: a zero-sentence paragraph extracts without error; the
eventuality result is the empty sequence (zero buckets), the in-order
relation result is exactly one empty intra-sentence bucket with no
inter-sentence buckets, and the merged results are empty. -/
theorem empty_paragraph_results (para_clauses : List (List (List Nat)))
    (extractor : SentParsed → List Eventuality)
    (para_eventualities : List (List Eventuality)) (connectives : List Connective) :
    extract_eventualities3 [] para_clauses extractor true = .inOrder [] ∧
    extract_eventualities3 [] para_clauses extractor false = .merged [] ∧
    extract_relations3 0 para_eventualities connectives "Relation" true = .ok (.inOrder [[]]) ∧
    extract_relations3 0 para_eventualities connectives "Relation" false = .ok (.merged []) :=
  ⟨rfl, rfl, rfl, rfl⟩

/-- C1: the merged (非-in-order) output mode crashes instead of grouping.
`extract_relations_from_parsed_result` raises `NameError` (`deeocopy`) on the
first relation of any non-empty result; the rid grouping of
`extract_from_parsed_result` raises `AttributeError` (`update`) as soon as an
rid repeats, and only the empty result and the eid grouping (whose
`Eventuality.update` exists) behave as the claim describes. -/
theorem merged_mode_eval :
    extract_relations3 1 [[ev1, ev2]] [] "Relation" false = .error (.nameError "deeocopy") ∧
    merged_relations_from [[rel0], [rel0]] = .error (.attributeError "update") ∧
    merged_relations_from [] = .ok [] ∧
    merged_eventualities_from [[ev1], [ev1, ev2]] =
      [{ eid := "E1", raw_sent_mapping := [(0, 0), (1, 1)], frequency := 1 + 1 }, ev2] :=
  ⟨rfl, rfl, rfl, by rfl⟩

/-- C8: both output-format checks and the input-shape check of
`extract_from_parsed_result` run before any extraction work: for a bad
format or a non-dict/list/tuple paragraph the call returns an error that
does not depend on the extraction body at all (so no partial result exists),
and an invalid eventuality format yields its error even when the paragraph
itself is invalid or would extract successfully. -/
theorem output_format_checked {σ ρ : Type} (efmt rfmt : String) (input : ParaInput σ)
    (body body2 : List σ → Bool → ρ)
    (h : ¬(efmt = "Eventuality" ∨ efmt = "json") ∨
         ¬(rfmt = "Relation" ∨ rfmt = "triple") ∨ input = ParaInput.other) :
    (∃ e, extract_from_parsed_result_guard efmt rfmt input body = Except.error e) ∧
    extract_from_parsed_result_guard efmt rfmt input body =
      extract_from_parsed_result_guard efmt rfmt input body2 ∧
    (¬(efmt = "Eventuality" ∨ efmt = "json") →
      extract_from_parsed_result_guard efmt rfmt input body =
        Except.error (PyError.notImplementedError
          "extract_eventualities only supports Eventuality or json")) := by
  by_cases h1 : efmt = "Eventuality" ∨ efmt = "json"
  · by_cases h2 : rfmt = "Relation" ∨ rfmt = "triple"
    · have h3 : input = ParaInput.other := by tauto
      subst h3
      refine ⟨⟨PyError.notImplementedError "", ?_⟩, ?_, fun hc => absurd h1 hc⟩
      · simp [extract_from_parsed_result_guard, h1, h2]
      · simp [extract_from_parsed_result_guard, h1, h2]
    · refine ⟨⟨PyError.notImplementedError
          "extract_relations only supports Relation or triple", ?_⟩, ?_,
          fun hc => absurd h1 hc⟩
      · simp [extract_from_parsed_result_guard, h1, h2]
      · simp [extract_from_parsed_result_guard, h1, h2]
  · refine ⟨⟨PyError.notImplementedError
        "extract_eventualities only supports Eventuality or json", ?_⟩, ?_, ?_⟩
    · simp [extract_from_parsed_result_guard, h1]
    · simp [extract_from_parsed_result_guard, h1]
    · intro _
      simp [extract_from_parsed_result_guard, h1]

/-- Witness for C8: an unsupported eventuality output format is rejected with
the format error even though the paragraph is a valid sentence list, and the
result ignores the extraction body. -/
theorem output_format_checked_witness :
    (∃ e, @extract_from_parsed_result_guard Nat Nat "xml" "Relation"
        (ParaInput.listOf [1]) (fun _ _ => 0) = Except.error e) ∧
    @extract_from_parsed_result_guard Nat Nat "xml" "Relation"
        (ParaInput.listOf [1]) (fun _ _ => 0) =
      @extract_from_parsed_result_guard Nat Nat "xml" "Relation"
        (ParaInput.listOf [1]) (fun _ _ => 1) ∧
    (¬(("xml" : String) = "Eventuality" ∨ ("xml" : String) = "json") →
      @extract_from_parsed_result_guard Nat Nat "xml" "Relation"
          (ParaInput.listOf [1]) (fun _ _ => 0) =
        Except.error (PyError.notImplementedError
          "extract_eventualities only supports Eventuality or json")) :=
  output_format_checked "xml" "Relation" (ParaInput.listOf [1]) (fun _ _ => 0) (fun _ _ => 1)
    (Or.inl (by decide))

/-- C4 counterexample: in `extract_relations_from_parsed_result`, a connective
candidate whose arguments lie in sentences 0 and 2 of a three-sentence
paragraph (|i-j| = 2 > 1) is NOT discarded: a relation between the
sentence-0 eventuality and the sentence-2 eventuality is created and stored
in bucket 3 = arg1_idx + len_sentences. -/
theorem nonadjacent_relation_created :
    extract_relations3 3 [[ev1], [], [ev3]] [conn02] "Relation" true =
      .ok (.inOrder [[], [], [], [Relation.init "E1" "E3" ["Reason"]], []]) := by rfl

/-- C4 amended: the adjacency discard exists only in
`extract_from_parsed_result`: there, a candidate whose argument sentences are
neither equal nor exactly adjacent changes no bucket and creates no relation.
In `extract_relations_from_parsed_result` the check is absent: every
candidate with differing argument sentence indices — adjacent or not — is
assigned the inter-sentence bucket `arg1_idx + len_sentences`. -/
theorem adjacency_amended (n i j : Nat) (buckets : List (List Relation))
    (evs1 evs2 : List Eventuality) (sense : Option String)
    (h1 : i ≠ j) (h2 : i + 1 ≠ j) :
    add_connective_relations n buckets evs1 evs2 i j sense = .ok buckets ∧
    relation_list_idx_unchecked n i j = i + n := by
  have hnone : relation_list_idx_checked n i j = none := by
    rw [relation_list_idx_checked, if_neg h1, if_neg h2]
  constructor
  · unfold add_connective_relations
    rw [hnone]
  · rw [relation_list_idx_unchecked, if_neg h1]

/-- Witness for C4's amended statement at the non-adjacent pair (0, 2). -/
theorem adjacency_amended_witness :
    add_connective_relations 3 [[], [], [], [], []] [ev1] [ev3] 0 2 (some "Reason") =
      .ok [[], [], [], [], []] ∧
    relation_list_idx_unchecked 3 0 2 = 0 + 3 :=
  adjacency_amended 3 0 2 [[], [], [], [], []] [ev1] [ev3] (some "Reason")
    (by decide) (by decide)

theorem length_orderedPairs {α : Type} (l : List α) :
    2 * (orderedPairs l).length = l.length * (l.length - 1) := by
  induction l with
  | nil => rfl
  | cons x xs ih =>
    simp only [orderedPairs, List.length_append, List.length_map, List.length_cons]
    cases hxs : xs.length with
    | zero =>
      rw [hxs] at ih
      omega
    | succ m =>
      rw [hxs] at ih
      simp only [Nat.add_sub_cancel] at ih ⊢
      have hthis : (m + 1 + 1) * (m + 1) = 2 * (m + 1) + (m + 1) * m := by ring
      rw [hthis, ← ih]
      ring

theorem mem_of_getElem_some {α : Type} {l : List α} {i : Nat} {a : α}
    (h : l[i]? = some a) : a ∈ l := by
  induction l generalizing i with
  | nil => simp at h
  | cons x xs ih =>
    cases i with
    | zero =>
      simp only [List.getElem?_cons_zero, Option.some.injEq] at h
      rw [← h]
      exact List.mem_cons_self _ _
    | succ k =>
      simp only [List.getElem?_cons_succ] at h
      exact List.mem_cons_of_mem _ (ih h)

theorem getElem_some_of_mem {α : Type} {l : List α} {a : α} (h : a ∈ l) :
    ∃ i : Nat, l[i]? = some a := by
  induction l with
  | nil => simp at h
  | cons x xs ih =>
    rcases List.mem_cons.mp h with h | h
    · exact ⟨0, by simp [h]⟩
    · obtain ⟨i, hi⟩ := ih h
      exact ⟨i + 1, by simpa using hi⟩

theorem mem_orderedPairs {α : Type} {l : List α} {a b : α} :
    (a, b) ∈ orderedPairs l ↔ ∃ i j : Nat, i < j ∧ l[i]? = some a ∧ l[j]? = some b := by
  induction l with
  | nil => simp [orderedPairs]
  | cons x xs ih =>
    simp only [orderedPairs, List.mem_append, List.mem_map]
    constructor
    · rintro (⟨y, hy, hxy⟩ | hrec)
      · have hx : x = a := congrArg Prod.fst hxy
        have hyb : y = b := congrArg Prod.snd hxy
        obtain ⟨j, hj⟩ := getElem_some_of_mem hy
        refine ⟨0, j + 1, by omega, by simp [hx], ?_⟩
        simpa [hyb] using hj
      · obtain ⟨i, j, hij, ha, hb⟩ := ih.mp hrec
        exact ⟨i + 1, j + 1, by omega, by simpa using ha, by simpa using hb⟩
    · rintro ⟨i, j, hij, ha, hb⟩
      cases i with
      | zero =>
        simp only [List.getElem?_cons_zero, Option.some.injEq] at ha
        cases j with
        | zero => omega
        | succ j2 =>
          simp only [List.getElem?_cons_succ] at hb
          exact Or.inl ⟨b, mem_of_getElem_some hb, by rw [ha]⟩
      | succ i2 =>
        cases j with
        | zero => omega
        | succ j2 =>
          simp only [List.getElem?_cons_succ] at ha hb
          exact Or.inr (ih.mpr ⟨i2, j2, by omega, ha, hb⟩)

theorem getD_append_left {α : Type} (l l2 : List α) (d : α) (i : Nat) (h : i < l.length) :
    (l ++ l2).getD i d = l.getD i d := by
  induction l generalizing i with
  | nil => simp at h
  | cons a t ih =>
    cases i with
    | zero => rfl
    | succ k =>
      simp only [List.cons_append, List.getD_cons_succ]
      exact ih k (by simpa using Nat.lt_of_succ_lt_succ h)

theorem getD_map_range {α : Type} (f : Nat → α) (n i : Nat) (d : α) (h : i < n) :
    ((List.range n).map f).getD i d = f i := by
  have hlen : i < ((List.range n).map f).length := by simpa using h
  rw [List.getD_eq_getElem _ _ hlen]
  simp

/-- C5: running relation extraction with no connective candidates — i.e.
before any discourse sense is added — yields, for every sentence i of the
paragraph, an intra-sentence bucket equal to the baseline loop's output:
exactly k*(k-1)/2 Co_Occurrence relations for a sentence with k
eventualities, one per ordered pair with the head occurring before the tail
in extraction order, each carrying exactly the weight-1.0 Co_Occurrence
sense. -/
theorem co_occurrence_baseline_thm (pe : List (List Eventuality)) (n : Nat) (hn : 0 < n) :
    (∃ buckets, extract_relations3 n pe [] "Relation" true = .ok (.inOrder buckets) ∧
      buckets.length = 2 * n - 1 ∧
      ∀ i, i < n → buckets.getD i [] = coBaseline (pe.getD i [])) ∧
    (∀ evs : List Eventuality,
      (coBaseline evs).length = evs.length * (evs.length - 1) / 2 ∧
      (∀ r, r ∈ coBaseline evs ↔ ∃ i j : Nat, ∃ e1 e2 : Eventuality, i < j ∧
          evs[i]? = some e1 ∧ evs[j]? = some e2 ∧
          r = Relation.init e1.eid e2.eid ["Co_Occurrence"]) ∧
      (∀ r, r ∈ coBaseline evs → r.relations = [("Co_Occurrence", (1 : ℚ))])) := by
  have hne : ¬ n = 0 := Nat.pos_iff_ne_zero.mp hn
  constructor
  · refine ⟨((List.range n).map (fun i => coBaseline (pe.getD i []))) ++
      List.replicate (n - 1) [], ?_, ?_, ?_⟩
    · simp [extract_relations3, hne, List.foldlM_nil]
    · simp only [List.length_append, List.length_map, List.length_range,
        List.length_replicate]
      omega
    · intro i hi
      rw [getD_append_left _ _ _ _ (by simpa using hi)]
      exact getD_map_range _ _ _ _ hi
  · intro evs
    refine ⟨?_, ?_, ?_⟩
    · have h2 := length_orderedPairs evs
      simp only [coBaseline, List.length_map]
      omega
    · intro r
      simp only [coBaseline, List.mem_map]
      constructor
      · rintro ⟨⟨e1, e2⟩, hp, rfl⟩
        obtain ⟨i, j, hij, ha, hb⟩ := mem_orderedPairs.mp hp
        exact ⟨i, j, e1, e2, hij, ha, hb, rfl⟩
      · rintro ⟨i, j, e1, e2, hij, ha, hb, rfl⟩
        exact ⟨(e1, e2), mem_orderedPairs.mpr ⟨i, j, hij, ha, hb⟩, rfl⟩
    · intro r hr
      simp only [coBaseline, List.mem_map] at hr
      obtain ⟨p, hp, hr2⟩ := hr
      rw [← hr2]
      rfl

/-- Witness for C5 at a one-sentence paragraph holding two eventualities. -/
theorem co_occurrence_baseline_witness :
    (∃ buckets, extract_relations3 1 [[ev1, ev2]] [] "Relation" true = .ok (.inOrder buckets) ∧
      buckets.length = 2 * 1 - 1 ∧
      ∀ i, i < 1 → buckets.getD i [] = coBaseline ([[ev1, ev2]].getD i [])) ∧
    (∀ evs : List Eventuality,
      (coBaseline evs).length = evs.length * (evs.length - 1) / 2 ∧
      (∀ r, r ∈ coBaseline evs ↔ ∃ i j : Nat, ∃ e1 e2 : Eventuality, i < j ∧
          evs[i]? = some e1 ∧ evs[j]? = some e2 ∧
          r = Relation.init e1.eid e2.eid ["Co_Occurrence"]) ∧
      (∀ r, r ∈ coBaseline evs → r.relations = [("Co_Occurrence", (1 : ℚ))])) :=
  co_occurrence_baseline_thm [[ev1, ev2]] 1 (by decide)

theorem idx_pos_lt_length {x : Nat} {S : List Nat} (h : x ∈ S) : idx_pos S x < S.length := by
  induction S with
  | nil => simp at h
  | cons k rest ih =>
    by_cases hk : k = x
    · simp [idx_pos, hk]
    · have hx : x ∈ rest := by
        rcases List.mem_cons.mp h with h1 | h1
        · exact absurd h1.symm hk
        · exact h1
      simp only [idx_pos, if_neg hk, List.length_cons]
      exact Nat.succ_lt_succ (ih hx)

theorem getD_idx_pos {x : Nat} {S : List Nat} (h : x ∈ S) : S.getD (idx_pos S x) 0 = x := by
  induction S with
  | nil => simp at h
  | cons k rest ih =>
    by_cases hk : k = x
    · simp [idx_pos, hk]
    · have hx : x ∈ rest := by
        rcases List.mem_cons.mp h with h1 | h1
        · exact absurd h1.symm hk
        · exact h1
      simp only [idx_pos, if_neg hk, List.getD_cons_succ]
      exact ih hx

theorem bisect_left_eq_zero {x : Nat} {S : List Nat} (h : ∀ y ∈ S, ¬ y < x) :
    bisect_left S x = 0 := by
  induction S with
  | nil => rfl
  | cons k rest ih =>
    have hk := h k (List.mem_cons_self _ _)
    simp only [bisect_left, if_neg hk]
    exact ih (fun y hy => h y (List.mem_cons_of_mem _ hy))

theorem bisect_left_eq_idx_pos {x : Nat} {S : List Nat}
    (hS : List.Pairwise (· < ·) S) (h : x ∈ S) : bisect_left S x = idx_pos S x := by
  induction S with
  | nil => simp at h
  | cons k rest ih =>
    rcases List.pairwise_cons.mp hS with ⟨hlt, hrest⟩
    by_cases hk : k = x
    · have hnl : ¬ k < x := by omega
      have hz : bisect_left rest x = 0 := by
        apply bisect_left_eq_zero
        intro y hy
        have := hlt y hy
        omega
      simp only [bisect_left, if_neg hnl, idx_pos, if_pos hk]
      exact hz
    · have hx : x ∈ rest := by
        rcases List.mem_cons.mp h with h1 | h1
        · exact absurd h1.symm hk
        · exact h1
      have hkx : k < x := hlt x hx
      simp only [bisect_left, if_pos hkx, idx_pos, if_neg hk]
      rw [ih hrest hx]

theorem getD_mem {S : List Nat} {i : Nat} (h : i < S.length) : S.getD i 0 ∈ S := by
  induction S generalizing i with
  | nil => simp at h
  | cons k rest ih =>
    cases i with
    | zero => simp [List.getD_cons_zero]
    | succ m =>
      simp only [List.getD_cons_succ]
      exact List.mem_cons_of_mem _ (ih (by simpa using Nat.lt_of_succ_lt_succ h))

theorem bisect_found_iff {x : Nat} {S : List Nat} (hS : List.Pairwise (· < ·) S) :
    (bisect_left S x < S.length ∧ S.getD (bisect_left S x) 0 = x) ↔ x ∈ S := by
  constructor
  · rintro ⟨h1, h2⟩
    rw [← h2]
    exact getD_mem h1
  · intro hx
    rw [bisect_left_eq_idx_pos hS hx]
    exact ⟨idx_pos_lt_length hx, getD_idx_pos hx⟩

/-- C9: projecting an argument span S (strictly increasing token indices of
one sentence, with well-formed mention spans) gathers tokens, POS tags,
lemmas and NER labels in the order of S; keeps a dependency triple iff both
its endpoints are members of S, re-indexed to their positions in S; and
keeps a mention iff both its start and its end-1 boundary indices occur
exactly in S (located by the sorted search), rewriting its start/end to
positions within S with end exclusive. -/
theorem span_projection_correct (sp : SentParsed) (S : List Nat)
    (hS : List.Pairwise (· < ·) S)
    (_hends : ∀ m ∈ sp.mentions.getD [], 1 ≤ m.end_) :
    ((project sp S).tokens = S.map (fun i => sp.tokens.getD i "") ∧
     (project sp S).pos_tags = S.map (fun i => sp.pos_tags.getD i "") ∧
     (project sp S).lemmas = S.map (fun i => sp.lemmas.getD i "") ∧
     (project sp S).ners = sp.ners.map (fun ns => S.map (fun i => ns.getD i ""))) ∧
    (∀ t : Nat × String × Nat, t ∈ (project sp S).dependencies ↔
      ∃ d, d ∈ sp.dependencies ∧ d.1 ∈ S ∧ d.2.2 ∈ S ∧
        t = (idx_pos S d.1, d.2.1, idx_pos S d.2.2)) ∧
    (∀ m2 : Mention, m2 ∈ ((project sp S).mentions.getD []) ↔
      ∃ m, m ∈ sp.mentions.getD [] ∧ m.start ∈ S ∧ m.end_ - 1 ∈ S ∧
        m2 = { m with start := idx_pos S m.start, end_ := idx_pos S (m.end_ - 1) + 1 }) := by
  refine ⟨⟨rfl, rfl, rfl, rfl⟩, ?_, ?_⟩
  · intro t
    simp only [project, List.mem_map, List.mem_filter, Bool.and_eq_true, decide_eq_true_eq]
    constructor
    · rintro ⟨d, ⟨hd, h1, h2⟩, rfl⟩
      exact ⟨d, hd, h1, h2, rfl⟩
    · rintro ⟨d, hd, h1, h2, rfl⟩
      exact ⟨d, ⟨hd, h1, h2⟩, rfl⟩
  · intro m2
    cases hm : sp.mentions with
    | none => simp [project, hm]
    | some ms =>
      simp only [project, hm, Option.map_some', Option.getD_some, List.mem_filterMap]
      constructor
      · rintro ⟨m, hmem, hf⟩
        by_cases c1 : bisect_left S m.start < S.length ∧
            S.getD (bisect_left S m.start) 0 = m.start
        · by_cases c2 : bisect_left S (m.end_ - 1) < S.length ∧
              S.getD (bisect_left S (m.end_ - 1)) 0 = m.end_ - 1
          · rw [if_pos c1, if_pos c2] at hf
            have hs : m.start ∈ S := (bisect_found_iff hS).mp c1
            have he : m.end_ - 1 ∈ S := (bisect_found_iff hS).mp c2
            refine ⟨m, hmem, hs, he, ?_⟩
            have hinj := Option.some.inj hf
            rw [← hinj, bisect_left_eq_idx_pos hS hs, bisect_left_eq_idx_pos hS he]
          · rw [if_pos c1, if_neg c2] at hf
            cases hf
        · rw [if_neg c1] at hf
          cases hf
      · rintro ⟨m, hmem, hs, he, rfl⟩
        refine ⟨m, hmem, ?_⟩
        have c1 : bisect_left S m.start < S.length ∧
            S.getD (bisect_left S m.start) 0 = m.start := (bisect_found_iff hS).mpr hs
        have c2 : bisect_left S (m.end_ - 1) < S.length ∧
            S.getD (bisect_left S (m.end_ - 1)) 0 = m.end_ - 1 := (bisect_found_iff hS).mpr he
        rw [if_pos c1, if_pos c2, bisect_left_eq_idx_pos hS hs, bisect_left_eq_idx_pos hS he]

/-- A concrete mention spanning tokens 1-2 of `sp0`. -/
def mention1 : Mention := { start := 1, end_ := 3, mtype := "PER" }

/-- A concrete mention spanning tokens 0-1 of `sp0`. -/
def mention2 : Mention := { start := 0, end_ := 2, mtype := "ORG" }

/-- A concrete five-token sentence annotation. -/
def sp0 : SentParsed :=
  { text := "t"
    dependencies := [(0, "amod", 1), (1, "nsubj", 2), (2, "obj", 4)]
    tokens := ["a", "b", "c", "d", "e"]
    pos_tags := ["P0", "P1", "P2", "P3", "P4"]
    lemmas := ["la", "lb", "lc", "ld", "le"]
    ners := some ["O", "B", "O", "O", "O"]
    mentions := some [mention1, mention2] }

/-- A concrete strictly increasing span of `sp0`. -/
def S0 : List Nat := [1, 2, 4]

/-- Witness for C9 at the concrete sentence `sp0` and span `S0`. -/
theorem span_projection_correct_witness :
    ((project sp0 S0).tokens = S0.map (fun i => sp0.tokens.getD i "") ∧
     (project sp0 S0).pos_tags = S0.map (fun i => sp0.pos_tags.getD i "") ∧
     (project sp0 S0).lemmas = S0.map (fun i => sp0.lemmas.getD i "") ∧
     (project sp0 S0).ners = sp0.ners.map (fun ns => S0.map (fun i => ns.getD i ""))) ∧
    (∀ t : Nat × String × Nat, t ∈ (project sp0 S0).dependencies ↔
      ∃ d, d ∈ sp0.dependencies ∧ d.1 ∈ S0 ∧ d.2.2 ∈ S0 ∧
        t = (idx_pos S0 d.1, d.2.1, idx_pos S0 d.2.2)) ∧
    (∀ m2 : Mention, m2 ∈ ((project sp0 S0).mentions.getD []) ↔
      ∃ m, m ∈ sp0.mentions.getD [] ∧ m.start ∈ S0 ∧ m.end_ - 1 ∈ S0 ∧
        m2 = { m with start := idx_pos S0 m.start, end_ := idx_pos S0 (m.end_ - 1) + 1 }) :=
  span_projection_correct sp0 S0 (by decide) (by decide)
